import Mathlib

/-!
Shallow embedding of the GCP aggregation, deduplication and spatial-quality
scoring pipeline of `gcp_filter.py` and `research_gcp_support/gcp_finder.py`.

Python `dict` records are embedded as a structure of optional fields, float
arithmetic as exact arithmetic over `ℚ` (and `ℝ` where square roots appear),
and raised exceptions as `Except` values.
-/

/-- Python `int(x)` on a rational: truncation toward zero. -/
def pyTrunc (q : ℚ) : ℤ :=
  if q < 0 then -⌊-q⌋ else ⌊q⌋

/-- Python `round(x)` to an integer: round half to even (banker's rounding). -/
def pyRoundHalfEven (q : ℚ) : ℤ :=
  let f := ⌊q⌋
  let r := q - f
  if r < 1/2 then f
  else if 1/2 < r then f + 1
  else if f % 2 = 0 then f else f + 1

/-- Python `round(x, 6)`: round to 6 decimal places. -/
def pyRound6 (q : ℚ) : ℚ :=
  (pyRoundHalfEven (q * 1000000) : ℚ) / 1000000

/-- A GCP record: the loosely-typed attribute bag produced by the source
clients.  Each optional field is `none` when the corresponding dict key is
absent.  `type` and `description` default to the empty string, matching the
`gcp.get('type', '')` reads in the source. -/
structure GCP where
  id : Option String := none
  label : Option String := none
  lat : Option ℚ := none
  latitude : Option ℚ := none
  lon : Option ℚ := none
  longitude : Option ℚ := none
  accuracy : Option ℚ := none
  rmse : Option ℚ := none
  error : Option ℚ := none
  type : String := ""
  description : String := ""
  photo_identifiable : Option Bool := none
deriving DecidableEq, Repr

/-- Effective latitude: `gcp.get('lat', gcp.get('latitude'))`. -/
def effLat (g : GCP) : Option ℚ :=
  match g.lat with
  | some v => some v
  | none => g.latitude

/-- Effective longitude: `gcp.get('lon', gcp.get('longitude'))`. -/
def effLon (g : GCP) : Option ℚ :=
  match g.lon with
  | some v => some v
  | none => g.longitude

/-- Effective identifier: `gcp.get('id', gcp.get('label'))`. -/
def effId (g : GCP) : Option String :=
  match g.id with
  | some s => some s
  | none => g.label

/-- Deduplication key: either a truthy id/label string, or the location
rounded to 6 decimal places (dedup code of `_deduplicate_gcps`). -/
inductive Key where
  | idK (s : String)
  | locK (lat lon : ℚ)
deriving DecidableEq, Repr

/-- The rounded `(lat, lon)` pair used as the fallback dedup key, when both
coordinates are present. -/
def roundedLoc (g : GCP) : Option (ℚ × ℚ) :=
  match effLat g, effLon g with
  | some la, some lo => some (pyRound6 la, pyRound6 lo)
  | _, _ => none

/-- Fallback location key of a record, if it has both coordinates. -/
def locKey (g : GCP) : Option Key :=
  (roundedLoc g).map (fun p => Key.locK p.1 p.2)

/-- The dedup key chosen by `_deduplicate_gcps` for a record: the id/label
string when it is truthy (present and non-empty), else the rounded location
when both coordinates are present, else no key at all. -/
def gcpKey (g : GCP) : Option Key :=
  match effId g with
  | some s => if s = "" then locKey g else some (Key.idK s)
  | none => locKey g

/-- The loop body of `GCPFinder._deduplicate_gcps`, with the `seen` set made
explicit.  A record with a key is kept iff its key is unseen; a keyless
record is always kept and leaves `seen` unchanged. -/
def dedupAux (seen : List Key) : List GCP → List GCP
  | [] => []
  | g :: rest =>
    match gcpKey g with
    | some k =>
      if k ∈ seen then dedupAux seen rest
      else g :: dedupAux (k :: seen) rest
    | none => g :: dedupAux seen rest

/-- `GCPFinder._deduplicate_gcps`: first-seen deduplication by id/label or
rounded location. -/
def deduplicate_gcps (gcps : List GCP) : List GCP :=
  dedupAux [] gcps

/-- Keys of the records of a list that carry one. -/
def keysOf (l : List GCP) : List Key :=
  l.filterMap gcpKey

/-- Character-list version of Python string containment: does the first list
occur as a prefix of the second? -/
def chListStart : List Char → List Char → Bool
  | [], _ => true
  | _ :: _, [] => false
  | a :: as, b :: bs => a == b && chListStart as bs

/-- Does the first list occur contiguously anywhere inside the second? -/
def chListSub (n : List Char) : List Char → Bool
  | [] => n.isEmpty
  | b :: bs => chListStart n (b :: bs) || chListSub n bs

/-- Python `needle in hay` on strings: contiguous substring test. -/
def strContains (hay needle : String) : Bool :=
  chListSub needle.toList hay.toList

/-- ASCII lowercasing (`str.lower()`), done on the character list. -/
def strToLower (s : String) : String :=
  ⟨s.data.map Char.toLower⟩

/-- The fixed photo-identifiability vocabulary of `_is_photo_identifiable`. -/
def identifiable_types : List String :=
  ["road intersection", "building corner", "corner", "intersection",
   "landmark", "structure", "marker"]

/-- `GCPFilter._is_photo_identifiable`: vocabulary match on the lowercased
`type` or `description`, then the explicit flag, then an unconditional
`return True` fallback. -/
def is_photo_identifiable (g : GCP) : Bool :=
  let gcp_type := strToLower g.type
  let descr := strToLower g.description
  if identifiable_types.any (fun ind => strContains gcp_type ind) then true
  else if identifiable_types.any (fun ind => strContains descr ind) then true
  else if (g.photo_identifiable.getD false) then true
  else true

/-- `GCPFilter._meets_accuracy_requirement`: the first present alias among
`accuracy`/`rmse`/`error` must be at most the threshold; a record with no
accuracy value passes by policy (the `float('inf')` default). -/
def meets_accuracy_requirement (min_accuracy : ℚ) (g : GCP) : Bool :=
  match g.accuracy with
  | some a => a ≤ min_accuracy
  | none =>
    match g.rmse with
    | some a => a ≤ min_accuracy
    | none =>
      match g.error with
      | some a => a ≤ min_accuracy
      | none => true

/-- Target-area membership is abstracted as a predicate on `(lon, lat)`,
standing for `contains(point) or touches(point)` on the shapely polygon. -/
def is_in_target_area (target : Option ((ℚ × ℚ) → Bool)) (g : GCP) : Bool :=
  match target with
  | none => true
  | some inArea =>
    match effLat g, effLon g with
    | some la, some lo => inArea (lo, la)
    | _, _ => false

/-- The `GCPFilter` configuration object. -/
structure GCPFilter where
  min_accuracy : ℚ := 1
  require_photo_identifiable : Bool := true
  target_area : Option ((ℚ × ℚ) → Bool) := none
  min_spread_score : Option ℝ := none
  min_confidence_score : Option ℝ := none

/-- The per-point admission test of the `filter_gcps` loop (accuracy, then
photo-identifiability if required, then target-area membership if a target
area is set). -/
def perPointKeep (f : GCPFilter) (g : GCP) : Bool :=
  meets_accuracy_requirement f.min_accuracy g &&
  (!f.require_photo_identifiable || is_photo_identifiable g) &&
  (!f.target_area.isSome || is_in_target_area f.target_area g)

/-- A planar point in `(lon, lat)` order, as built by the scorer
(`points.append((lon, lat))`). -/
abbrev Pt := ℚ × ℚ

/-- Squared planar Euclidean distance between two points. -/
def sqDist (p q : Pt) : ℚ :=
  (p.1 - q.1) ^ 2 + (p.2 - q.2) ^ 2

/-- Minimum of a list of rationals (0 on the empty list; only applied to
non-empty lists in the embedding). -/
def listMinQ : List ℚ → ℚ
  | [] => 0
  | x :: xs => xs.foldl min x

/-- Maximum of a list of rationals (0 on the empty list). -/
def listMaxQ : List ℚ → ℚ
  | [] => 0
  | x :: xs => xs.foldl max x

/-- Coordinate extraction of the scorer: the `(lon, lat)` pairs of the
records having both coordinates (other records are skipped). -/
def validPoints (gcps : List GCP) : List Pt :=
  gcps.filterMap (fun g =>
    match effLat g, effLon g with
    | some la, some lo => some (lo, la)
    | _, _ => none)

/-- A bounding box `(min_lat, min_lon, max_lat, max_lon)`. -/
structure BBox where
  minLat : ℚ
  minLon : ℚ
  maxLat : ℚ
  maxLon : ℚ
deriving DecidableEq, Repr

/-- The bounding box derived from the points when the caller supplies none:
`(min(lats), min(lons), max(lats), max(lons))`. -/
def derivedBBox (points : List Pt) : BBox :=
  { minLat := listMinQ (points.map Prod.snd)
    minLon := listMinQ (points.map Prod.fst)
    maxLat := listMaxQ (points.map Prod.snd)
    maxLon := listMaxQ (points.map Prod.fst) }

/-- The bounding box actually used by the scorer. -/
def effectiveBBox (points : List Pt) (bbox : Option BBox) : BBox :=
  match bbox with
  | some b => b
  | none => derivedBBox points

/-- `bbox_area = (max_lat - min_lat) * (max_lon - min_lon)`. -/
def bboxAreaQ (b : BBox) : ℚ :=
  (b.maxLat - b.minLat) * (b.maxLon - b.minLon)

/-- Cross product of `oa` and `ob`, used for the convex-hull turn test. -/
def crossP (o a b : Pt) : ℚ :=
  (a.1 - o.1) * (b.2 - o.2) - (a.2 - o.2) * (b.1 - o.1)

/-- Lexicographic insertion (by lon, then lat) for sorting hull input. -/
def insLex (p : Pt) : List Pt → List Pt
  | [] => [p]
  | q :: rest =>
    if p.1 < q.1 ∨ (p.1 = q.1 ∧ p.2 ≤ q.2) then p :: q :: rest
    else q :: insLex p rest

/-- Insertion sort of points in lexicographic order. -/
def sortLex (l : List Pt) : List Pt :=
  l.foldr insLex []

/-- One step of Andrew's monotone chain: push `p`, popping points that no
longer make a strict left turn.  The accumulator is kept in reverse order
(most recently added point first). -/
def hullStep (p : Pt) : List Pt → List Pt
  | b :: a :: rest =>
    if crossP a b p ≤ 0 then hullStep p (a :: rest)
    else p :: b :: a :: rest
  | l => p :: l

/-- Half (lower or upper) hull of an already sorted point list, in reverse
order of construction. -/
def halfHull (pts : List Pt) : List Pt :=
  pts.foldl (fun acc p => hullStep p acc) []

/-- Twice the signed shoelace sum of a closed polygon given by its vertex
list, with wraparound from the last vertex back to `p0`. -/
def shoelaceFrom (p0 : Pt) : Pt → List Pt → ℚ
  | p, [] => p.1 * p0.2 - p0.1 * p.2
  | p, q :: rest => (p.1 * q.2 - q.1 * p.2) + shoelaceFrom p0 q rest

/-- Absolute polygon area from a vertex list (shoelace formula). -/
def polyArea : List Pt → ℚ
  | [] => 0
  | p :: rest => |shoelaceFrom p p rest| / 2

/-- Area of the convex hull of a point set (the value of shapely's
`MultiPoint(points).convex_hull.area`): Andrew's monotone chain over the
deduplicated sorted points, lower and upper chains joined, then shoelace.
Degenerate hulls (fewer than 3 distinct extreme points, collinear sets)
yield area 0. -/
def hullArea (pts : List Pt) : ℚ :=
  let s := sortLex pts.dedup
  let lower := (halfHull s).reverse
  let upper := (halfHull s.reverse).reverse
  polyArea (lower.dropLast ++ upper.dropLast)

/-- The list of squared nearest-neighbour distances: entry `i` is
`min_{j ≠ i} sqDist p_i p_j`.  The first argument accumulates the points
already passed.  Mirrors the `pdist`/`squareform` matrix with an infinite
diagonal followed by a row-wise `min`: since `sqrt` is monotone, the row
minimum of distances is the square root of the row minimum of squared
distances. -/
def nnSqAux : List Pt → List Pt → List ℚ
  | _, [] => []
  | prev, p :: rest =>
    listMinQ ((prev ++ rest).map (fun q => sqDist p q)) :: nnSqAux (prev ++ [p]) rest

/-- Squared nearest-neighbour distance of every point of the list. -/
def nnSqDists (pts : List Pt) : List ℚ :=
  nnSqAux [] pts

/-- Grid steps: a third of the box height/width, or the 1.0 fallback for a
degenerate dimension. -/
def latStepQ (b : BBox) : ℚ :=
  if b.minLat < b.maxLat then (b.maxLat - b.minLat) / 3 else 1

def lonStepQ (b : BBox) : ℚ :=
  if b.minLon < b.maxLon then (b.maxLon - b.minLon) / 3 else 1

/-- The grid cell `(lat_idx, lon_idx)` a point falls into:
`min(int((coord - min) / step), 2)` per axis, guarded by positive steps. -/
def gridCellOf (b : BBox) (p : Pt) : Option (ℤ × ℤ) :=
  if 0 < latStepQ b ∧ 0 < lonStepQ b then
    some (min (pyTrunc ((p.2 - b.minLat) / latStepQ b)) 2,
          min (pyTrunc ((p.1 - b.minLon) / lonStepQ b)) 2)
  else none

/-- Number of distinct grid cells occupied by the points
(`len(grid_cells_with_points)`). -/
def gridCellCount (points : List Pt) (b : BBox) : ℕ :=
  ((points.filterMap (gridCellOf b)).dedup).length

/-- Metric 1, `convex_hull_ratio`: hull area over bbox area when both are
positive, else 0. -/
noncomputable def convexHullRatio (points : List Pt) (b : BBox) : ℝ :=
  if 0 < hullArea points ∧ 0 < bboxAreaQ b then
    ((hullArea points : ℚ) : ℝ) / ((bboxAreaQ b : ℚ) : ℝ)
  else 0

/-- Metric 2, `avg_nearest_neighbor`: mean over all points of the distance
to the nearest other point. -/
noncomputable def avgNearestNeighbor (points : List Pt) : ℝ :=
  ((nnSqDists points).map (fun q => Real.sqrt ((q : ℚ) : ℝ))).sum
    / (points.length : ℝ)

/-- Diagonal length of the bounding box. -/
noncomputable def bboxDiagonal (b : BBox) : ℝ :=
  Real.sqrt ((((b.maxLat - b.minLat) ^ 2 + (b.maxLon - b.minLon) ^ 2 : ℚ)) : ℝ)

/-- `normalized_avg_nn`: average nearest-neighbour distance divided by the
bbox diagonal when the diagonal is positive, else 0. -/
noncomputable def normalizedAvgNN (points : List Pt) (b : BBox) : ℝ :=
  if 0 < bboxDiagonal b then avgNearestNeighbor points / bboxDiagonal b else 0

/-- Metric 3, `grid_coverage`: occupied cells of the 3x3 grid over 9. -/
noncomputable def gridCoverage (points : List Pt) (b : BBox) : ℝ :=
  (gridCellCount points b : ℝ) / 9

/-- `spread_score`: the fixed weighted combination of the three metrics. -/
noncomputable def spreadScore (points : List Pt) (b : BBox) : ℝ :=
  0.4 * min (convexHullRatio points b * 2) 1 +
  0.3 * min (normalizedAvgNN points b * 10) 1 +
  0.3 * gridCoverage points b

/-- `confidence_score`: spread plus a point-count term saturating at 10
points; `n` is the length of the original `gcps` argument. -/
noncomputable def confidenceScore (n : ℕ) (points : List Pt) (b : BBox) : ℝ :=
  0.7 * spreadScore points b + 0.3 * min ((n : ℝ) / 10) 1

/-- The metrics record returned by `calculate_spatial_distribution_score`. -/
structure SpatialMetrics where
  convex_hull_ratio : ℝ
  avg_nearest_neighbor : ℝ
  normalized_avg_nn : ℝ
  grid_coverage : ℝ
  spread_score : ℝ
  confidence_score : ℝ
  num_points : ℕ
  warning : Option String

/-- The all-zero metrics record returned on insufficient data. -/
def zeroMetrics (w : String) : SpatialMetrics :=
  { convex_hull_ratio := 0
    avg_nearest_neighbor := 0
    normalized_avg_nn := 0
    grid_coverage := 0
    spread_score := 0
    confidence_score := 0
    num_points := 0
    warning := some w }

/-- The metrics record of the main branch of the scorer. -/
noncomputable def mainMetrics (n : ℕ) (points : List Pt) (b : BBox) :
    SpatialMetrics :=
  { convex_hull_ratio := convexHullRatio points b
    avg_nearest_neighbor := avgNearestNeighbor points
    normalized_avg_nn := normalizedAvgNN points b
    grid_coverage := gridCoverage points b
    spread_score := spreadScore points b
    confidence_score := confidenceScore n points b
    num_points := n
    warning := none }

/-- `calculate_spatial_distribution_score`: the two insufficient-data guards
followed by the metric computation over the valid points and the given or
derived bounding box. -/
noncomputable def calculate_spatial_distribution_score
    (gcps : List GCP) (bbox : Option BBox) : SpatialMetrics :=
  if gcps.length < 2 then
    zeroMetrics "Need at least 2 GCPs for spatial distribution analysis"
  else
    let points := validPoints gcps
    if points.length < 2 then zeroMetrics "Insufficient valid coordinates"
    else mainMetrics gcps.length points (effectiveBBox points bbox)

/-- Is a score strictly below an optional threshold?  (`False` when the
threshold is not configured.) -/
def scoreBelow (x : ℝ) : Option ℝ → Prop
  | none => False
  | some t => x < t

noncomputable instance scoreBelowDec (x : ℝ) (t : Option ℝ) :
    Decidable (scoreBelow x t) :=
  match t with
  | none => isFalse (fun h => h)
  | some s => inferInstanceAs (Decidable (x < s))

/-- `GCPFilter.filter_gcps`: the per-point admission loop, then — only when
at least two points survive — the set-level spread/confidence thresholds,
each of which rejects the whole surviving set. -/
noncomputable def filter_gcps (f : GCPFilter) (gcps : List GCP)
    (bbox : Option BBox) : List GCP :=
  let filtered := gcps.filter (perPointKeep f)
  if 2 ≤ filtered.length then
    let m := calculate_spatial_distribution_score filtered bbox
    if scoreBelow m.spread_score f.min_spread_score then []
    else if scoreBelow m.confidence_score f.min_confidence_score then []
    else filtered
  else filtered

/-- `GCPFinder.find_gcps` from the deduplication of the concatenated USGS
results onward, with each source call embedded as an `Except` value: a
raised exception on the Python side is an `Except.error`, and the monadic
bind places the secondary-source query exactly where the code performs it
(inside the below-threshold branch only). -/
noncomputable def find_gcps_exc {ε : Type} (usgsRes noaaRes : Except ε (List GCP))
    (threshold : ℕ) (flt : GCPFilter) (bbox : BBox) : Except ε (List GCP) := do
  let usgs_gcps ← usgsRes
  let unique_usgs_gcps := deduplicate_gcps usgs_gcps
  let all_gcps ←
    if unique_usgs_gcps.length < threshold then do
      let noaa_gcps ← noaaRes
      pure (deduplicate_gcps (unique_usgs_gcps ++ noaa_gcps))
    else pure unique_usgs_gcps
  pure (filter_gcps flt all_gcps (some bbox))


/-- Photo-identifiability as worded by the specification claim: vocabulary
match, or an explicitly true flag, or no signal (no vocabulary match and no
flag) present at all.  Used only to compare the spec wording with
`is_photo_identifiable`. -/
def claimPhotoIdentifiable (g : GCP) : Bool :=
  let gcp_type := strToLower g.type
  let descr := strToLower g.description
  let vocab := identifiable_types.any (fun ind => strContains gcp_type ind) ||
    identifiable_types.any (fun ind => strContains descr ind)
  vocab || (g.photo_identifiable == some true) ||
    (!vocab && g.photo_identifiable == none)

/-- Membership of a `(lon, lat)` point in a bounding box. -/
def inBB (b : BBox) (p : Pt) : Prop :=
  b.minLat ≤ p.2 ∧ p.2 ≤ b.maxLat ∧ b.minLon ≤ p.1 ∧ p.1 ≤ b.maxLon

/-- Fixture: a record with every key absent. -/
def gEmptyRec : GCP := {}

/-- Fixture: no `id`, label "A", coordinates (1, 2). -/
def gLabelA : GCP := { label := some "A", lat := some 1, lon := some 2 }

/-- Fixture: no `id`, label "B", the same coordinates (1, 2). -/
def gLabelB : GCP := { label := some "B", lat := some 1, lon := some 2 }

/-- Fixture: a non-matching type together with an explicitly false flag. -/
def gWaterTower : GCP := { type := "water tower", photo_identifiable := some false }

/-- Fixture points for the accuracy-monotonicity counterexample: two
accurate points 4 degrees apart and nine less accurate points stacked on
the first one. -/
def gX : GCP := { lat := some 0, lon := some 0, accuracy := some 1 }

def gY : GCP := { lat := some 0, lon := some 4, accuracy := some 1 }

def gZ : GCP := { lat := some 0, lon := some 0, accuracy := some 2 }

def exGcps : List GCP := [gX, gY, gZ, gZ, gZ, gZ, gZ, gZ, gZ, gZ, gZ]

/-- Fixture bounding box `(0, 0, 3, 4)` (diagonal 5, area 12). -/
def bbox34 : BBox := ⟨0, 0, 3, 4⟩

/-- Fixture bounding box `(0, 0, 3, 3)` (unit grid steps). -/
def bbox33 : BBox := ⟨0, 0, 3, 3⟩

/-- Filter with a configured spread threshold 3/10 and accuracy bound 1. -/
noncomputable def cfgA : GCPFilter :=
  { min_accuracy := 1, require_photo_identifiable := false,
    target_area := none, min_spread_score := some (3/10),
    min_confidence_score := none }

/-- The same filter with the accuracy bound loosened to 2. -/
noncomputable def cfgB : GCPFilter := { cfgA with min_accuracy := 2 }

/-- Fixture for the scorer-range counterexample: ten records at longitude
1/2 whose latitudes fall below the supplied bounding box in nine distinct
truncated grid rows. -/
def cexGcps : List GCP :=
  [{ lat := some (1/2), lon := some (1/2) },
   { lat := some (-3/2), lon := some (1/2) },
   { lat := some (-5/2), lon := some (1/2) },
   { lat := some (-7/2), lon := some (1/2) },
   { lat := some (-9/2), lon := some (1/2) },
   { lat := some (-11/2), lon := some (1/2) },
   { lat := some (-13/2), lon := some (1/2) },
   { lat := some (-15/2), lon := some (1/2) },
   { lat := some (-17/2), lon := some (1/2) },
   { lat := some (-19/2), lon := some (1/2) }]

/-- The `(lon, lat)` pairs of `cexGcps`. -/
def cexPts : List Pt :=
  [((1:ℚ)/2, (1:ℚ)/2), ((1:ℚ)/2, -(3:ℚ)/2), ((1:ℚ)/2, -(5:ℚ)/2),
   ((1:ℚ)/2, -(7:ℚ)/2), ((1:ℚ)/2, -(9:ℚ)/2), ((1:ℚ)/2, -(11:ℚ)/2),
   ((1:ℚ)/2, -(13:ℚ)/2), ((1:ℚ)/2, -(15:ℚ)/2), ((1:ℚ)/2, -(17:ℚ)/2),
   ((1:ℚ)/2, -(19:ℚ)/2)]

/-- Fixture pair of in-box records for the scorer-range witness. -/
def wGcps : List GCP :=
  [{ lat := some 1, lon := some 1 }, { lat := some 2, lon := some 2 }]

/-- The valid points of the per-point survivors of the strict fixture
filter `cfgA` over `exGcps`. -/
def ptsA : List Pt := [((0 : ℚ), (0 : ℚ)), ((4 : ℚ), (0 : ℚ))]

/-- The valid points of all eleven fixture records of `exGcps`. -/
def ptsB : List Pt :=
  [((0 : ℚ), (0 : ℚ)), ((4 : ℚ), (0 : ℚ)), ((0 : ℚ), (0 : ℚ)),
   ((0 : ℚ), (0 : ℚ)), ((0 : ℚ), (0 : ℚ)), ((0 : ℚ), (0 : ℚ)),
   ((0 : ℚ), (0 : ℚ)), ((0 : ℚ), (0 : ℚ)), ((0 : ℚ), (0 : ℚ)),
   ((0 : ℚ), (0 : ℚ)), ((0 : ℚ), (0 : ℚ))]

/-- Bool test of whether a record carries the dedup key `k`. -/
def hasKey (k : Key) (g : GCP) : Bool :=
  gcpKey g == some k

theorem keysOf_nil : keysOf [] = [] := rfl

theorem keysOf_cons (g : GCP) (l : List GCP) :
    keysOf (g :: l) =
      match gcpKey g with
      | some k => k :: keysOf l
      | none => keysOf l := by
  cases h : gcpKey g <;> simp [keysOf, List.filterMap_cons, h]

/-- The output of the dedup loop has pairwise distinct keys, none of which
was already in the `seen` accumulator. -/
theorem dedupAux_keys_nodup (l : List GCP) :
    ∀ seen : List Key, (keysOf (dedupAux seen l)).Nodup ∧
      ∀ k ∈ keysOf (dedupAux seen l), k ∉ seen := by
  induction l with
  | nil => intro seen; simp [dedupAux, keysOf]
  | cons g rest ih =>
    intro seen
    cases hk : gcpKey g with
    | none =>
      have h := ih seen
      simp only [dedupAux, hk]
      constructor
      · rw [keysOf_cons, hk]; exact h.1
      · rw [keysOf_cons, hk]; exact h.2
    | some k =>
      by_cases hmem : k ∈ seen
      · simpa [dedupAux, hk, hmem] using ih seen
      · have h := ih (k :: seen)
        simp only [dedupAux, hk, hmem, if_false]
        rw [keysOf_cons, hk]
        constructor
        · refine List.nodup_cons.2 ⟨fun hc => ?_, h.1⟩
          exact (h.2 k hc) (List.mem_cons_self k seen)
        · intro k2 hk2
          rcases List.mem_cons.1 hk2 with h1 | h2
          · exact h1 ▸ hmem
          · intro hs
            exact (h.2 k2 h2) (List.mem_cons_of_mem _ hs)

/-- A list whose keyed records already have pairwise distinct keys, all
unseen, passes through the dedup loop unchanged. -/
theorem dedupAux_fixed (l : List GCP) :
    ∀ seen : List Key, (keysOf l).Nodup → (∀ k ∈ keysOf l, k ∉ seen) →
      dedupAux seen l = l := by
  induction l with
  | nil => intro seen _ _; rfl
  | cons g rest ih =>
    intro seen hnd hdisj
    cases hk : gcpKey g with
    | none =>
      rw [keysOf_cons, hk] at hnd hdisj
      simp only [dedupAux, hk]
      rw [ih seen hnd hdisj]
    | some k =>
      rw [keysOf_cons, hk] at hnd hdisj
      have hknotin : k ∉ keysOf rest := (List.nodup_cons.1 hnd).1
      have hkseen : k ∉ seen := hdisj k (List.mem_cons_self _ _)
      simp only [dedupAux, hk, hkseen, if_false]
      rw [ih (k :: seen) (List.nodup_cons.1 hnd).2]
      intro k2 hk2
      intro hc
      rcases List.mem_cons.1 hc with h1 | h2
      · exact hknotin (h1 ▸ hk2)
      · exact hdisj k2 (List.mem_cons_of_mem _ hk2) h2

/-- C8: deduplication is idempotent: applying `_deduplicate_gcps` to its own
output returns that output identically (same elements, same order). -/
theorem deduplicate_idempotent (l : List GCP) :
    deduplicate_gcps (deduplicate_gcps l) = deduplicate_gcps l := by
  have h := dedupAux_keys_nodup l []
  exact dedupAux_fixed (dedupAux [] l) [] h.1 (by intro k _; simp)

/-- Among the records carrying a given dedup key, exactly the first one of
the input survives the dedup loop (provided the key is unseen). -/
theorem dedupAux_filter_key (l : List GCP) :
    ∀ seen : List Key, ∀ k : Key,
      (dedupAux seen l).filter (hasKey k) =
        if k ∈ seen then [] else (l.filter (hasKey k)).take 1 := by
  induction l with
  | nil => intro seen k; by_cases h : k ∈ seen <;> simp [dedupAux, h]
  | cons g rest ih =>
    intro seen k
    cases hk : gcpKey g with
    | none =>
      have hg : hasKey k g = false := by simp [hasKey, hk]
      simp only [dedupAux, hk, List.filter_cons, hg, if_false]
      rw [ih seen k]
      simp [List.filter_cons, hg]
    | some k2 =>
      by_cases hmem : k2 ∈ seen
      · simp only [dedupAux, hk, hmem, if_true]
        rw [ih seen k]
        by_cases hkk : k = k2
        · subst hkk
          have hg : hasKey k g = true := by simp [hasKey, hk]
          simp [hmem, List.filter_cons, hg]
        · have hg : hasKey k g = false := by
            simp [hasKey, hk]; exact fun h => (hkk h.symm).elim
          simp [List.filter_cons, hg]
      · simp only [dedupAux, hk, hmem, if_false]
        by_cases hkk : k = k2
        · subst hkk
          have hg : hasKey k g = true := by simp [hasKey, hk]
          simp only [List.filter_cons, hg, if_true]
          rw [ih (k :: seen) k]
          simp [hmem, List.filter_cons, hg]
        · have hg : hasKey k g = false := by
            simp [hasKey, hk]; exact fun h => (hkk h.symm).elim
          simp only [List.filter_cons, hg, Bool.false_eq_true, if_false]
          rw [ih (k2 :: seen) k]
          by_cases hks : k ∈ seen <;> simp [hks, List.mem_cons, hkk]

/-- C7 (amended): key precedence over the whole entry point.  For every
dedup key — the id-or-label string when present and non-empty, otherwise
the 6-decimal-rounded location of a record with coordinates — exactly the
first-seen record carrying that key survives deduplication and every later
record with the same key is dropped, whatever its coordinates. -/
theorem deduplicate_filter_key (l : List GCP) (k : Key) :
    (deduplicate_gcps l).filter (hasKey k) = (l.filter (hasKey k)).take 1 := by
  have h := dedupAux_filter_key l [] k
  simpa [deduplicate_gcps] using h

/-- A keyless record is always retained: the dedup loop preserves its number
of occurrences exactly. -/
theorem dedupAux_count_keyless (r : GCP) (hr : gcpKey r = none) (l : List GCP) :
    ∀ seen : List Key, (dedupAux seen l).count r = l.count r := by
  induction l with
  | nil => intro seen; rfl
  | cons g rest ih =>
    intro seen
    cases hk : gcpKey g with
    | none =>
      simp only [dedupAux, hk]
      rw [List.count_cons, List.count_cons, ih seen]
    | some k =>
      have hgr : ¬(g = r) := by
        intro h; rw [h, hr] at hk; exact Option.noConfusion hk
      by_cases hmem : k ∈ seen
      · simp only [dedupAux, hk, hmem, if_true]
        rw [ih seen, List.count_cons]
        simp [hgr]
      · simp only [dedupAux, hk, hmem, if_false]
        rw [List.count_cons, List.count_cons, ih (k :: seen)]

/-- C7 (counterexample): two records with no `id` key whose coordinates
round to the same 6-decimal pair both survive deduplication when they carry
distinct labels, because `gcp.get('id', gcp.get('label'))` falls back to the
label before the location key is ever considered. -/
theorem dedup_no_id_same_location_cex :
    (gLabelA.id = none ∧ gLabelB.id = none ∧
      roundedLoc gLabelA = roundedLoc gLabelB ∧ (roundedLoc gLabelA).isSome) ∧
    deduplicate_gcps [gLabelA, gLabelB] = [gLabelA, gLabelB] :=
  ⟨⟨rfl, rfl, rfl, rfl⟩, by decide⟩

/-- C10: a record with neither an `id` nor a `label` key and a missing
latitude or longitude has no dedup key, so the dedup loop always retains
it: its number of occurrences in the output equals that in the input, and
in particular two identical such records both survive. -/
theorem keyless_records_always_retained (l : List GCP) (r : GCP)
    (h1 : r.id = none) (h2 : r.label = none)
    (h3 : effLat r = none ∨ effLon r = none) :
    (deduplicate_gcps l).count r = l.count r := by
  have hkey : gcpKey r = none := by
    have hid : effId r = none := by simp [effId, h1, h2]
    have hloc : roundedLoc r = none := by
      rcases h3 with h | h
      · simp [roundedLoc, h]
      · cases he : effLat r <;> simp [roundedLoc, he, h]
    simp [gcpKey, hid, locKey, hloc]
  exact dedupAux_count_keyless r hkey l []

/-- Witness for C10 at a concrete input: the empty record occurs twice in
the input and twice in the deduplicated output. -/
theorem keyless_records_always_retained_witness :
    (gEmptyRec.id = none ∧ gEmptyRec.label = none ∧ effLat gEmptyRec = none) ∧
    (deduplicate_gcps [gEmptyRec, gEmptyRec]).count gEmptyRec =
      [gEmptyRec, gEmptyRec].count gEmptyRec := by
  refine ⟨by decide, ?_⟩
  exact keyless_records_always_retained [gEmptyRec, gEmptyRec] gEmptyRec
    rfl rfl (Or.inl rfl)

/-- C4 (amended): the photo-identifiability test passes for every record:
after the vocabulary and flag checks, `_is_photo_identifiable` falls
through to an unconditional `return True`. -/
theorem photo_identifiable_always_true (g : GCP) :
    is_photo_identifiable g = true := by
  simp only [is_photo_identifiable]
  split
  · rfl
  · split
    · rfl
    · split <;> rfl

/-- C4 (counterexample): a record carrying a negative signal — an
explicitly false `photo_identifiable` flag and a non-matching non-empty
type — still passes the code's test, while the claim's reading of the
heuristic classifies it as failing. -/
theorem photo_identifiable_negative_signal_cex :
    is_photo_identifiable gWaterTower = true ∧
    claimPhotoIdentifiable gWaterTower = false := by
  constructor
  · exact photo_identifiable_always_true gWaterTower
  · decide

/-- C9: with fewer than two valid-coordinate points (in particular the
empty and the singleton input), the scorer returns the all-zero metrics
record with its warning field set, as an ordinary value. -/
theorem scorer_insufficient_data (gcps : List GCP) (bbox : Option BBox)
    (h : (validPoints gcps).length < 2) :
    (calculate_spatial_distribution_score gcps bbox).convex_hull_ratio = 0 ∧
    (calculate_spatial_distribution_score gcps bbox).avg_nearest_neighbor = 0 ∧
    (calculate_spatial_distribution_score gcps bbox).normalized_avg_nn = 0 ∧
    (calculate_spatial_distribution_score gcps bbox).grid_coverage = 0 ∧
    (calculate_spatial_distribution_score gcps bbox).spread_score = 0 ∧
    (calculate_spatial_distribution_score gcps bbox).confidence_score = 0 ∧
    (calculate_spatial_distribution_score gcps bbox).warning.isSome = true := by
  by_cases hlen : gcps.length < 2
  · simp [calculate_spatial_distribution_score, hlen, zeroMetrics]
  · simp [calculate_spatial_distribution_score, hlen, h, zeroMetrics]

/-- Witness for C9 at the empty input. -/
theorem scorer_insufficient_data_witness :
    (validPoints ([] : List GCP)).length < 2 ∧
    ((calculate_spatial_distribution_score [] none).convex_hull_ratio = 0 ∧
     (calculate_spatial_distribution_score [] none).avg_nearest_neighbor = 0 ∧
     (calculate_spatial_distribution_score [] none).normalized_avg_nn = 0 ∧
     (calculate_spatial_distribution_score [] none).grid_coverage = 0 ∧
     (calculate_spatial_distribution_score [] none).spread_score = 0 ∧
     (calculate_spatial_distribution_score [] none).confidence_score = 0 ∧
     (calculate_spatial_distribution_score [] none).warning.isSome = true) :=
  ⟨by decide, scorer_insufficient_data [] none (by decide)⟩

/-- C5: the NOAA query happens exactly when the deduplicated USGS count is
strictly below the threshold.  At or above the threshold the result is the
filtered deduplicated USGS set, whatever the NOAA outcome would have been
(`r` is not consulted); below it the NOAA outcome is consulted and its
records are merged and re-deduplicated before filtering. -/
theorem find_gcps_threshold_policy {ε : Type} (usgs : List GCP)
    (r : Except ε (List GCP)) (t : ℕ) (flt : GCPFilter) (bbox : BBox) :
    find_gcps_exc (Except.ok usgs) r t flt bbox =
      if (deduplicate_gcps usgs).length < t then
        r.map (fun noaa =>
          filter_gcps flt (deduplicate_gcps (deduplicate_gcps usgs ++ noaa))
            (some bbox))
      else Except.ok (filter_gcps flt (deduplicate_gcps usgs) (some bbox)) := by
  by_cases hc : (deduplicate_gcps usgs).length < t
  · cases r <;>
      simp [find_gcps_exc, hc, Except.map, Except.bind, Except.pure, bind, pure]
  · simp [find_gcps_exc, hc, Except.bind, Except.pure, bind, pure]

/-- C3 (counterexample): a raised primary-source error is not absorbed: at
a concrete input where the USGS client raises, `find_gcps` re-raises
instead of completing with the NOAA points. -/
theorem find_gcps_error_propagates_cex :
    find_gcps_exc (Except.error () : Except Unit (List GCP)) (Except.ok [])
      10 {} ⟨0, 0, 1, 1⟩ = Except.error () := rfl

/-- C3 (amended): `find_gcps` has no error handling of its own: an error
raised by the primary source propagates out unchanged, and so does one
raised by the secondary source whenever the secondary source is consulted
(deduplicated primary count below the threshold).  Only the source-client
layer absorbs (some) errors. -/
theorem find_gcps_error_propagation {ε : Type} (e : ε)
    (r : Except ε (List GCP)) (usgs : List GCP) (t : ℕ) (flt : GCPFilter)
    (bbox : BBox) :
    find_gcps_exc (Except.error e) r t flt bbox = Except.error e ∧
    ((deduplicate_gcps usgs).length < t →
      find_gcps_exc (Except.ok usgs) (Except.error e) t flt bbox =
        Except.error e) := by
  constructor
  · rfl
  · intro h
    simp [find_gcps_exc, h, Except.bind, bind]

/-- Witness for C3 (amended) at concrete inputs, with an empty primary
result below the threshold. -/
theorem find_gcps_error_propagation_witness :
    find_gcps_exc (Except.error () : Except Unit (List GCP)) (Except.ok [])
      1 {} ⟨0, 0, 1, 1⟩ = Except.error () ∧
    ((deduplicate_gcps ([] : List GCP)).length < 1 ∧
      find_gcps_exc (Except.ok ([] : List GCP))
        (Except.error () : Except Unit (List GCP)) 1 {} ⟨0, 0, 1, 1⟩ =
        Except.error ()) :=
  ⟨(find_gcps_error_propagation () (Except.ok []) [] 1 {} ⟨0, 0, 1, 1⟩).1,
   by decide,
   (find_gcps_error_propagation () (Except.ok []) [] 1 {} ⟨0, 0, 1, 1⟩).2
     (by decide)⟩

/-- C6: `filter_gcps` returns either the per-point-filtered sequence
unchanged, or the empty sequence, the latter exactly when at least two
points survive per-point filtering and a configured set-level threshold
(spread first, then confidence) is undercut by the computed metrics. -/
theorem filter_gcps_set_level_policy (f : GCPFilter) (gcps : List GCP)
    (bbox : Option BBox) :
    filter_gcps f gcps bbox =
      if 2 ≤ (gcps.filter (perPointKeep f)).length ∧
          (scoreBelow (calculate_spatial_distribution_score
              (gcps.filter (perPointKeep f)) bbox).spread_score
              f.min_spread_score ∨
           scoreBelow (calculate_spatial_distribution_score
              (gcps.filter (perPointKeep f)) bbox).confidence_score
              f.min_confidence_score)
      then []
      else gcps.filter (perPointKeep f) := by
  by_cases h2 : 2 ≤ (gcps.filter (perPointKeep f)).length <;>
    by_cases hs : scoreBelow (calculate_spatial_distribution_score
      (gcps.filter (perPointKeep f)) bbox).spread_score f.min_spread_score <;>
    by_cases hcf : scoreBelow (calculate_spatial_distribution_score
      (gcps.filter (perPointKeep f)) bbox).confidence_score
      f.min_confidence_score <;>
    simp [filter_gcps, h2, hs, hcf]

/-- Loosening the accuracy threshold weakens the accuracy test pointwise. -/
theorem meets_accuracy_mono (a b : ℚ) (hab : a ≤ b) (g : GCP)
    (h : meets_accuracy_requirement a g = true) :
    meets_accuracy_requirement b g = true := by
  rcases hacc : g.accuracy with _ | x
  · rcases hr : g.rmse with _ | x
    · rcases he : g.error with _ | x
      · simp [meets_accuracy_requirement, hacc, hr, he]
      · simp [meets_accuracy_requirement, hacc, hr, he] at h ⊢; linarith
    · simp [meets_accuracy_requirement, hacc, hr] at h ⊢; linarith
  · simp [meets_accuracy_requirement, hacc] at h ⊢; linarith

/-- Loosening the accuracy threshold weakens per-point admission. -/
theorem perPointKeep_mono (f : GCPFilter) (a b : ℚ) (hab : a ≤ b) (g : GCP)
    (h : perPointKeep { f with min_accuracy := a } g = true) :
    perPointKeep { f with min_accuracy := b } g = true := by
  simp only [perPointKeep, Bool.and_eq_true] at h ⊢
  exact ⟨⟨meets_accuracy_mono a b hab g h.1.1, h.1.2⟩, h.2⟩

/-- Without configured set-level thresholds, `filter_gcps` is exactly the
per-point admission filter. -/
theorem filter_gcps_no_set_thresholds (f : GCPFilter) (gcps : List GCP)
    (bbox : Option BBox) (hs : f.min_spread_score = none)
    (hc : f.min_confidence_score = none) :
    filter_gcps f gcps bbox = gcps.filter (perPointKeep f) := by
  simp [filter_gcps, hs, hc, scoreBelow, ite_self]

/-- C1 (amended): with no set-level spread/confidence threshold configured,
lowering `min_accuracy` never increases the number of points returned by
`filter_gcps`; with a set-level threshold configured the monotonicity fails
(see the counterexample). -/
theorem filter_gcps_accuracy_monotone (f : GCPFilter) (a b : ℚ)
    (gcps : List GCP) (bbox : Option BBox) (hs : f.min_spread_score = none)
    (hc : f.min_confidence_score = none) (hab : a ≤ b) :
    (filter_gcps { f with min_accuracy := a } gcps bbox).length ≤
      (filter_gcps { f with min_accuracy := b } gcps bbox).length := by
  rw [filter_gcps_no_set_thresholds { f with min_accuracy := a } gcps bbox hs hc,
    filter_gcps_no_set_thresholds { f with min_accuracy := b } gcps bbox hs hc]
  exact List.Sublist.length_le
    (List.monotone_filter_right gcps (fun g h => perPointKeep_mono f a b hab g h))

/-- Witness for C1 (amended) at concrete inputs. -/
theorem filter_gcps_accuracy_monotone_witness :
    ({} : GCPFilter).min_spread_score = none ∧
    ({} : GCPFilter).min_confidence_score = none ∧ (0 : ℚ) ≤ 1 ∧
    (filter_gcps { ({} : GCPFilter) with min_accuracy := 0 } [] none).length ≤
      (filter_gcps { ({} : GCPFilter) with min_accuracy := 1 } [] none).length :=
  ⟨rfl, rfl, by norm_num,
   filter_gcps_accuracy_monotone {} 0 1 [] none rfl rfl (by norm_num)⟩

theorem sqrt16 : Real.sqrt (16 : ℝ) = 4 := by
  rw [show (16 : ℝ) = (4 : ℝ) ^ 2 by norm_num]
  exact Real.sqrt_sq (by norm_num)

theorem validPoints_fixA : validPoints [gX, gY] = ptsA := by
  simp [validPoints, gX, gY, effLat, effLon, ptsA]

theorem nnSq_fixA : nnSqDists ptsA = [16, 16] := by
  norm_num [ptsA, nnSqDists, nnSqAux, listMinQ, sqDist]

theorem hull_fixA : hullArea ptsA = 0 := by
  norm_num [ptsA, hullArea, sortLex, insLex, hullStep, halfHull, crossP,
    polyArea, shoelaceFrom, List.dedup_cons_of_mem, List.dedup_cons_of_not_mem,
    List.foldl, List.foldr]

theorem grid_fixA : gridCellCount ptsA bbox34 = 2 := by
  rw [gridCellCount, show List.filterMap (gridCellOf bbox34) ptsA
      = [(0, 0), (0, 2)] by
    norm_num [ptsA, gridCellOf, latStepQ, lonStepQ, pyTrunc, bbox34,
      List.filterMap_cons, List.filterMap_nil]]
  decide

theorem diag_bbox34 : bboxDiagonal bbox34 = 5 := by
  rw [bboxDiagonal,
    show (((bbox34.maxLat - bbox34.minLat) ^ 2 +
      (bbox34.maxLon - bbox34.minLon) ^ 2 : ℚ) : ℝ) = (5 : ℝ) ^ 2 by
        norm_num [bbox34]]
  exact Real.sqrt_sq (by norm_num)

theorem avg_fixA : avgNearestNeighbor ptsA = 4 := by
  rw [avgNearestNeighbor, nnSq_fixA]
  norm_num [ptsA, sqrt16]

theorem spread_fixA : spreadScore ptsA bbox34 = 11 / 30 := by
  rw [spreadScore, convexHullRatio, if_neg (by simp [hull_fixA]),
    normalizedAvgNN, diag_bbox34, if_pos (by norm_num), avg_fixA,
    gridCoverage, grid_fixA]
  norm_num

theorem metrics_fixA :
    (calculate_spatial_distribution_score [gX, gY] (some bbox34)).spread_score
      = 11 / 30 := by
  rw [calculate_spatial_distribution_score]
  rw [if_neg (by norm_num)]
  simp only [validPoints_fixA, mainMetrics, effectiveBBox]
  rw [if_neg (by norm_num [ptsA])]
  exact spread_fixA

theorem validPoints_fixB : validPoints exGcps = ptsB := by
  simp [validPoints, exGcps, gX, gY, gZ, effLat, effLon, ptsB]

theorem nnSq_fixB : nnSqDists ptsB = [0, 16, 0, 0, 0, 0, 0, 0, 0, 0, 0] := by
  norm_num [ptsB, nnSqDists, nnSqAux, listMinQ, sqDist]

theorem hull_fixB : hullArea ptsB = 0 := by
  norm_num [ptsB, hullArea, sortLex, insLex, hullStep, halfHull, crossP,
    polyArea, shoelaceFrom, List.dedup_cons_of_mem, List.dedup_cons_of_not_mem,
    List.foldl, List.foldr]

theorem grid_fixB : gridCellCount ptsB bbox34 = 2 := by
  rw [gridCellCount, show List.filterMap (gridCellOf bbox34) ptsB
      = [(0, 0), (0, 2), (0, 0), (0, 0), (0, 0), (0, 0), (0, 0), (0, 0),
         (0, 0), (0, 0), (0, 0)] by
    norm_num [ptsB, gridCellOf, latStepQ, lonStepQ, pyTrunc, bbox34,
      List.filterMap_cons, List.filterMap_nil]]
  decide

theorem avg_fixB : avgNearestNeighbor ptsB = 4 / 11 := by
  rw [avgNearestNeighbor, nnSq_fixB]
  norm_num [ptsB, sqrt16, Real.sqrt_zero]

theorem spread_fixB : spreadScore ptsB bbox34 = 47 / 165 := by
  rw [spreadScore, convexHullRatio, if_neg (by simp [hull_fixB]),
    normalizedAvgNN, diag_bbox34, if_pos (by norm_num), avg_fixB,
    gridCoverage, grid_fixB]
  norm_num

theorem metrics_fixB :
    (calculate_spatial_distribution_score exGcps (some bbox34)).spread_score
      = 47 / 165 := by
  rw [calculate_spatial_distribution_score]
  rw [if_neg (by norm_num [exGcps])]
  simp only [validPoints_fixB, mainMetrics, effectiveBBox]
  rw [if_neg (by norm_num [ptsB])]
  exact spread_fixB

theorem perPoint_fixA : exGcps.filter (perPointKeep cfgA) = [gX, gY] := by
  norm_num [exGcps, perPointKeep, meets_accuracy_requirement, cfgA,
    gX, gY, gZ, List.filter_cons]

theorem perPoint_fixB : exGcps.filter (perPointKeep cfgB) = exGcps := by
  norm_num [exGcps, perPointKeep, meets_accuracy_requirement, cfgB, cfgA,
    gX, gY, gZ, List.filter_cons]

theorem filter_fixA : (filter_gcps cfgA exGcps (some bbox34)).length = 2 := by
  simp only [filter_gcps, perPoint_fixA]
  rw [if_pos (show 2 ≤ ([gX, gY] : List GCP).length by norm_num)]
  rw [if_neg (show ¬ scoreBelow (calculate_spatial_distribution_score [gX, gY]
      (some bbox34)).spread_score cfgA.min_spread_score by
    rw [show cfgA.min_spread_score = some ((3 : ℝ)/10) from rfl]
    simp only [scoreBelow, metrics_fixA]
    norm_num)]
  rw [if_neg (show ¬ scoreBelow (calculate_spatial_distribution_score [gX, gY]
      (some bbox34)).confidence_score cfgA.min_confidence_score by
    rw [show cfgA.min_confidence_score = none from rfl]
    simp [scoreBelow])]
  rfl

theorem filter_fixB : (filter_gcps cfgB exGcps (some bbox34)).length = 0 := by
  simp only [filter_gcps, perPoint_fixB]
  rw [if_pos (show 2 ≤ exGcps.length by norm_num [exGcps])]
  rw [if_pos (show scoreBelow (calculate_spatial_distribution_score exGcps
      (some bbox34)).spread_score cfgB.min_spread_score by
    rw [show cfgB.min_spread_score = some ((3 : ℝ)/10) from rfl]
    simp only [scoreBelow, metrics_fixB]
    norm_num)]
  rfl

/-- C1 (counterexample): with a configured `min_spread_score` of 3/10,
lowering `min_accuracy` from 2 to 1 grows the output of `filter_gcps` from
0 to 2 points on a fixed input: the strict filter keeps only the two
well-separated accurate points (spread 11/30, accepted), while the loose
filter keeps all eleven points, whose clustered spread 47/165 undercuts the
threshold and rejects the whole set. -/
theorem filter_gcps_accuracy_monotonicity_cex :
    cfgA.min_accuracy ≤ cfgB.min_accuracy ∧
    (filter_gcps cfgA exGcps (some bbox34)).length = 2 ∧
    (filter_gcps cfgB exGcps (some bbox34)).length = 0 :=
  ⟨by norm_num [cfgA, cfgB], filter_fixA, filter_fixB⟩

theorem latStepQ_pos (b : BBox) : 0 < latStepQ b := by
  rw [latStepQ]
  split
  · next h => exact div_pos (by linarith) (by norm_num)
  · norm_num

theorem lonStepQ_pos (b : BBox) : 0 < lonStepQ b := by
  rw [lonStepQ]
  split
  · next h => exact div_pos (by linarith) (by norm_num)
  · norm_num

theorem pyTrunc_nonneg (q : ℚ) (h : 0 ≤ q) : 0 ≤ pyTrunc q := by
  rw [pyTrunc, if_neg (not_lt.2 h)]
  exact Int.floor_nonneg.2 h

theorem gridCellCount_le_nine (points : List Pt) (b : BBox)
    (h : ∀ p ∈ points, inBB b p) : gridCellCount points b ≤ 9 := by
  classical
  rw [gridCellCount]
  have hsub : ∀ c ∈ points.filterMap (gridCellOf b),
      c ∈ (Finset.Icc (0 : ℤ) 2 ×ˢ Finset.Icc (0 : ℤ) 2) := by
    intro c hc
    rcases List.mem_filterMap.1 hc with ⟨p, hp, hcell⟩
    rw [gridCellOf, if_pos ⟨latStepQ_pos b, lonStepQ_pos b⟩] at hcell
    have hbp := h p hp
    cases hcell
    refine Finset.mem_product.2
      ⟨Finset.mem_Icc.2 ⟨?_, min_le_right _ _⟩,
       Finset.mem_Icc.2 ⟨?_, min_le_right _ _⟩⟩
    · exact le_min (pyTrunc_nonneg _
        (div_nonneg (by linarith [hbp.1]) (latStepQ_pos b).le)) (by norm_num)
    · exact le_min (pyTrunc_nonneg _
        (div_nonneg (by linarith [hbp.2.2.1]) (lonStepQ_pos b).le)) (by norm_num)
  calc (points.filterMap (gridCellOf b)).dedup.length
      = (points.filterMap (gridCellOf b)).toFinset.card :=
        (List.card_toFinset _).symm
    _ ≤ (Finset.Icc (0 : ℤ) 2 ×ˢ Finset.Icc (0 : ℤ) 2).card :=
        Finset.card_le_card (fun c hc => hsub c (List.mem_toFinset.1 hc))
    _ = 9 := by decide

theorem convexHullRatio_nonneg (points : List Pt) (b : BBox) :
    0 ≤ convexHullRatio points b := by
  rw [convexHullRatio]
  split
  · next h => exact div_nonneg (by exact_mod_cast h.1.le) (by exact_mod_cast h.2.le)
  · norm_num

theorem avgNearestNeighbor_nonneg (points : List Pt) :
    0 ≤ avgNearestNeighbor points := by
  rw [avgNearestNeighbor]
  apply div_nonneg _ (Nat.cast_nonneg _)
  apply List.sum_nonneg
  intro x hx
  rcases List.mem_map.1 hx with ⟨q, _, rfl⟩
  exact Real.sqrt_nonneg _

theorem normalizedAvgNN_nonneg (points : List Pt) (b : BBox) :
    0 ≤ normalizedAvgNN points b := by
  rw [normalizedAvgNN]
  split
  · next h => exact div_nonneg (avgNearestNeighbor_nonneg points) h.le
  · norm_num

theorem gridCoverage_nonneg (points : List Pt) (b : BBox) :
    0 ≤ gridCoverage points b :=
  div_nonneg (Nat.cast_nonneg _) (by norm_num)

theorem gridCoverage_le_one (points : List Pt) (b : BBox)
    (h : ∀ p ∈ points, inBB b p) : gridCoverage points b ≤ 1 := by
  rw [gridCoverage, div_le_one (by norm_num)]
  exact_mod_cast gridCellCount_le_nine points b h

theorem spreadScore_bounds (points : List Pt) (b : BBox)
    (h : ∀ p ∈ points, inBB b p) :
    0 ≤ spreadScore points b ∧ spreadScore points b ≤ 1 := by
  have h1 := convexHullRatio_nonneg points b
  have h2 := normalizedAvgNN_nonneg points b
  have h3 := gridCoverage_nonneg points b
  have h4 := gridCoverage_le_one points b h
  have m1 : 0 ≤ min (convexHullRatio points b * 2) 1 :=
    le_min (by linarith) (by norm_num)
  have m2 : 0 ≤ min (normalizedAvgNN points b * 10) 1 :=
    le_min (by linarith) (by norm_num)
  have m3 : min (convexHullRatio points b * 2) 1 ≤ 1 := min_le_right _ _
  have m4 : min (normalizedAvgNN points b * 10) 1 ≤ 1 := min_le_right _ _
  rw [spreadScore]
  constructor <;> [linarith; linarith]

theorem confidenceScore_bounds (n : ℕ) (points : List Pt) (b : BBox)
    (h : ∀ p ∈ points, inBB b p) :
    0 ≤ confidenceScore n points b ∧ confidenceScore n points b ≤ 1 := by
  have hs := spreadScore_bounds points b h
  have m1 : 0 ≤ min ((n : ℝ) / 10) 1 :=
    le_min (div_nonneg (Nat.cast_nonneg n) (by norm_num)) zero_le_one
  have m2 : min ((n : ℝ) / 10) 1 ≤ 1 := min_le_right _ _
  rw [confidenceScore]
  constructor <;> [linarith [hs.1]; linarith [hs.2]]

theorem validPoints_cex : validPoints cexGcps = cexPts := by
  simp [validPoints, cexGcps, effLat, effLon, cexPts]

theorem grid_cex : gridCellCount cexPts bbox33 = 10 := by
  rw [gridCellCount, show List.filterMap (gridCellOf bbox33) cexPts
      = [(0, 0), (-1, 0), (-2, 0), (-3, 0), (-4, 0), (-5, 0), (-6, 0),
         (-7, 0), (-8, 0), (-9, 0)] by
    norm_num [cexPts, gridCellOf, latStepQ, lonStepQ, pyTrunc, bbox33,
      List.filterMap_cons, List.filterMap_nil]]
  decide

/-- C2 (counterexample): with a supplied bounding box `(0, 0, 3, 3)` and ten
valid points below it, truncation produces ten distinct grid cells, so
`grid_coverage` is 10/9, exceeding the claimed upper bound of 1. -/
theorem scorer_range_cex :
    1 < (calculate_spatial_distribution_score cexGcps (some bbox33)).grid_coverage := by
  rw [calculate_spatial_distribution_score]
  rw [if_neg (by norm_num [cexGcps])]
  simp only [validPoints_cex, mainMetrics, effectiveBBox]
  rw [if_neg (by norm_num [cexPts])]
  rw [gridCoverage, grid_cex]
  norm_num

/-- C2 (amended): whenever every valid point lies within the effective
(supplied or derived) bounding box — which always holds for a derived box —
the metrics satisfy the claimed ranges: `convex_hull_ratio`,
`grid_coverage`, `spread_score` and `confidence_score` are nonnegative and
the last three are at most 1. -/
theorem scorer_range (gcps : List GCP) (bbox : Option BBox)
    (h : ∀ p ∈ validPoints gcps,
      inBB (effectiveBBox (validPoints gcps) bbox) p) :
    0 ≤ (calculate_spatial_distribution_score gcps bbox).convex_hull_ratio ∧
    0 ≤ (calculate_spatial_distribution_score gcps bbox).grid_coverage ∧
    (calculate_spatial_distribution_score gcps bbox).grid_coverage ≤ 1 ∧
    0 ≤ (calculate_spatial_distribution_score gcps bbox).spread_score ∧
    (calculate_spatial_distribution_score gcps bbox).spread_score ≤ 1 ∧
    0 ≤ (calculate_spatial_distribution_score gcps bbox).confidence_score ∧
    (calculate_spatial_distribution_score gcps bbox).confidence_score ≤ 1 := by
  by_cases h1 : gcps.length < 2
  · norm_num [calculate_spatial_distribution_score, h1, zeroMetrics]
  · by_cases h2 : (validPoints gcps).length < 2
    · norm_num [calculate_spatial_distribution_score, h1, h2, zeroMetrics]
    · simp only [calculate_spatial_distribution_score, h1, h2, if_false, mainMetrics]
      exact ⟨convexHullRatio_nonneg _ _, gridCoverage_nonneg _ _,
        gridCoverage_le_one _ _ h, (spreadScore_bounds _ _ h).1,
        (spreadScore_bounds _ _ h).2, (confidenceScore_bounds _ _ _ h).1,
        (confidenceScore_bounds _ _ _ h).2⟩

/-- Witness for C2 (amended) at a concrete two-point in-box input. -/
theorem scorer_range_witness :
    (∀ p ∈ validPoints wGcps,
      inBB (effectiveBBox (validPoints wGcps) (some bbox33)) p) ∧
    (0 ≤ (calculate_spatial_distribution_score wGcps (some bbox33)).convex_hull_ratio ∧
     0 ≤ (calculate_spatial_distribution_score wGcps (some bbox33)).grid_coverage ∧
     (calculate_spatial_distribution_score wGcps (some bbox33)).grid_coverage ≤ 1 ∧
     0 ≤ (calculate_spatial_distribution_score wGcps (some bbox33)).spread_score ∧
     (calculate_spatial_distribution_score wGcps (some bbox33)).spread_score ≤ 1 ∧
     0 ≤ (calculate_spatial_distribution_score wGcps (some bbox33)).confidence_score ∧
     (calculate_spatial_distribution_score wGcps (some bbox33)).confidence_score ≤ 1) := by
  have hc : ∀ p ∈ validPoints wGcps,
      inBB (effectiveBBox (validPoints wGcps) (some bbox33)) p := by
    intro p hp
    simp only [validPoints, wGcps, effLat, effLon, List.filterMap_cons,
      List.filterMap_nil, List.mem_cons, List.not_mem_nil, or_false] at hp
    rcases hp with rfl | rfl <;> norm_num [inBB, effectiveBBox, bbox33]
  exact ⟨hc, scorer_range wGcps (some bbox33) hc⟩
